import Mathlib

/-!
Verification of the README release-ledger updater of `cilium/helm-gh-pages-action`
(`src/index.js`), together with a model of the surrounding orchestration in `run()`.

The ledger is a Markdown document, modelled as a list of lines, each line a list of
characters.  The updater is the sequence of four `sed -i` invocations of
`src/index.js` lines 94-112, embedded here as pure functions on `List Line`:

1. `sed -i '/<tag>/d' README.md` — delete every line matching the tag
   (for a tag free of BRE metacharacters: every line containing the tag
   as a literal substring);
2. `sed -i '$a*' README.md` — append a line `*` after the last line
   (GNU sed runs the script once per input line, so a zero-line file
   is left unchanged: nothing is appended to an empty document);
3. `sed -i '0,/^\(\*.*\)/s,,<releaseText>\n\1,' README.md` — on the range from
   the start of the file to the first line starting with `*`, substitute the
   (re-used) pattern, i.e. prepend the release line directly before the first
   line starting with `*`; when no line starts with `*` the range never closes
   and no substitution happens;
4. `sed -i '/^*$/d' README.md` — delete every line that is exactly `*`
   (a leading `*` in a BRE is a literal asterisk).
-/

namespace HelmGhPages

/-- One line of the README ledger. -/
abbrev Line := List Char

/-- A release entry: the tag (the triggering ref with any `refs/tags/` stripped)
and the release-page URI. -/
structure ReleaseEntry where
  tag : Line
  uri : Line
deriving DecidableEq

/-- The characters `* [` opening a Markdown bullet link. -/
def entryOpen : Line := ['*', ' ', '[']

/-- The characters `](` between the label and the URI of a Markdown link. -/
def entryMid : Line := [']', '(']

/-- The character `)` closing a Markdown link. -/
def entryClose : Line := [')']

/-- A bare bullet line `*`. -/
def bareStar : Line := ['*']

/-- The entry line `* [t](u)`. -/
def entryLineOf (t u : Line) : Line := entryOpen ++ t ++ entryMid ++ u ++ entryClose

/-- `src/index.js` line 103: `* [<sourceBranch>](<releaseURI>)`. -/
def releaseText (e : ReleaseEntry) : Line := entryLineOf e.tag e.uri

/-- Pass 1, `src/index.js` lines 95-98: `sed -i '/<tag>/d'` deletes every line
containing the tag as a substring (the tag is spliced into the regex verbatim,
so this is faithful exactly when the tag contains no BRE metacharacters and no
`/`). -/
def sedDeleteMatching (tag : Line) (doc : List Line) : List Line :=
  doc.filter (fun l => !decide (tag <:+: l))

/-- Pass 2, `src/index.js` line 99: `sed -i '$a*'` appends a `*` line after the
last line; on a zero-line file GNU sed never reaches the `$` address and the
file stays empty. -/
def sedAppendStar (doc : List Line) : List Line :=
  match doc with
  | [] => []
  | _ :: _ => doc ++ [bareStar]

/-- Does a line start with `*` (the pattern `^\(\*.*\)` of line 104)? -/
def startsWithStar (l : Line) : Bool :=
  match l with
  | '*' :: _ => true
  | _ => false

/-- Pass 3, `src/index.js` lines 101-109:
`sed -i '0,/^\(\*.*\)/s,,<text>\n\1,'` rewrites the first line starting with `*`
into the release line followed by that line; lines before it do not match the
pattern, lines after the range are untouched, and with no matching line the
substitution never fires. -/
def sedInsertBefore (text : Line) : List Line → List Line
  | [] => []
  | l :: ls => if startsWithStar l then text :: l :: ls else l :: sedInsertBefore text ls

/-- Pass 4, `src/index.js` line 112: `sed -i '/^*$/d'` deletes every line that
is exactly a bare `*`. -/
def sedDeleteBareStar (doc : List Line) : List Line :=
  doc.filter (fun l => !decide (l = bareStar))

/-- The full ledger update of `src/index.js` lines 94-112: the four sed passes
in order. -/
def updateLedger (e : ReleaseEntry) (doc : List Line) : List Line :=
  sedDeleteBareStar (sedInsertBefore (releaseText e) (sedAppendStar (sedDeleteMatching e.tag doc)))

/-- `l` is an entry line whose label is `t`: it reads `* [t](u)` for some `u`. -/
def IsEntryFor (t l : Line) : Prop := ∃ u, l = entryLineOf t u

/-- `l` is an entry line: it reads `* [t](u)` for some label `t` and URI `u`. -/
def IsEntryLine (l : Line) : Prop := ∃ t u, l = entryLineOf t u

/-- The characters `* [t](` that open an entry line labelled `t`. -/
def entryHead (t : Line) : Line := entryOpen ++ t ++ entryMid

/-- Boolean test for `IsEntryFor t l` (see `isEntryForB_iff`). -/
def isEntryForB (t : Line) (l : Line) : Bool :=
  decide (entryHead t <+: l) && decide (entryClose <:+ l)
    && decide ((entryHead t).length + 1 ≤ l.length)

/-- Boolean test for `IsEntryLine l` (see `isEntryLineB_iff`). -/
def isEntryLineB (l : Line) : Bool :=
  decide (entryOpen <+: l) && decide (entryClose <:+ l)
    && decide (entryMid <:+: (l.drop 3).dropLast)

theorem isEntryForB_iff {t l : Line} : isEntryForB t l = true ↔ IsEntryFor t l := by
  constructor
  · intro h
    simp only [isEntryForB, Bool.and_eq_true, decide_eq_true_eq] at h
    obtain ⟨⟨⟨r, hr⟩, ⟨s, hs⟩⟩, hlen⟩ := h
    have hrne : r ≠ [] := by
      intro hnil
      subst hnil
      simp only [List.append_nil] at hr
      rw [← hr] at hlen
      omega
    obtain ⟨r', b, rfl⟩ := (List.eq_nil_or_concat' r).resolve_left hrne
    have hcat : (entryHead t ++ r') ++ [b] = s ++ [')'] := by
      have h1 := hr.trans hs.symm
      simpa [List.append_assoc, entryClose] using h1
    have hb : b = ')' := by
      have h1 := (List.append_inj' hcat (by simp)).2
      simpa using h1
    refine ⟨r', ?_⟩
    rw [← hr, hb]
    simp [entryLineOf, entryHead, entryClose, List.append_assoc]
  · rintro ⟨u, rfl⟩
    simp only [isEntryForB, Bool.and_eq_true, decide_eq_true_eq]
    refine ⟨⟨⟨u ++ entryClose, ?_⟩, ⟨entryOpen ++ t ++ entryMid ++ u, ?_⟩⟩, ?_⟩
    · simp [entryLineOf, entryHead, List.append_assoc]
    · simp [entryLineOf, List.append_assoc]
    · simp [entryLineOf, entryHead, entryClose]
      omega

theorem tag_of_isEntryForB {t l : Line} (h : isEntryForB t l = true) : t <:+: l := by
  simp only [isEntryForB, Bool.and_eq_true, decide_eq_true_eq] at h
  obtain ⟨⟨⟨r, hr⟩, -⟩, -⟩ := h
  exact ⟨entryOpen, entryMid ++ r, by rw [← hr]; simp [entryHead, List.append_assoc]⟩

theorem isEntryForB_bareStar (t : Line) : isEntryForB t bareStar = false := by
  rw [Bool.eq_false_iff]
  intro h
  simp only [isEntryForB, Bool.and_eq_true, decide_eq_true_eq] at h
  obtain ⟨-, hlen⟩ := h
  simp [entryHead, entryOpen, entryMid, bareStar] at hlen

theorem isEntryLineB_iff {l : Line} : isEntryLineB l = true ↔ IsEntryLine l := by
  constructor
  · intro h
    simp only [isEntryLineB, Bool.and_eq_true, decide_eq_true_eq] at h
    obtain ⟨⟨⟨r, hr⟩, ⟨s, hs⟩⟩, hm⟩ := h
    have hdrop : l.drop 3 = r := by
      rw [← hr]
      have h3 : entryOpen.length = 3 := rfl
      rw [← h3, List.drop_left]
    rw [hdrop] at hm
    have hrne : r ≠ [] := by
      intro hnil
      subst hnil
      simp only [List.dropLast_nil] at hm
      obtain ⟨x, y, hxy⟩ := hm
      have := (List.append_eq_nil.mp (List.append_eq_nil.mp hxy).1).2
      simp [entryMid] at this
    obtain ⟨r', b, rfl⟩ := (List.eq_nil_or_concat' r).resolve_left hrne
    have hcat : (entryOpen ++ r') ++ [b] = s ++ [')'] := by
      have h1 := hr.trans hs.symm
      simpa [List.append_assoc, entryClose] using h1
    have hb : b = ')' := by
      have h1 := (List.append_inj' hcat (by simp)).2
      simpa using h1
    rw [List.dropLast_concat] at hm
    obtain ⟨x, y, hxy⟩ := hm
    refine ⟨x, y, ?_⟩
    rw [← hr, hb, ← hxy]
    simp [entryLineOf, entryClose, List.append_assoc]
  · rintro ⟨t, u, rfl⟩
    simp only [isEntryLineB, Bool.and_eq_true, decide_eq_true_eq]
    refine ⟨⟨⟨t ++ entryMid ++ u ++ entryClose, ?_⟩, ⟨entryOpen ++ t ++ entryMid ++ u, ?_⟩⟩, ?_⟩
    · simp [entryLineOf, List.append_assoc]
    · simp [entryLineOf, List.append_assoc]
    · have h3 : entryOpen.length = 3 := rfl
      rw [entryLineOf, List.append_assoc, List.append_assoc, List.append_assoc, ← h3,
        List.drop_left]
      have hconc : t ++ (entryMid ++ (u ++ entryClose)) = (t ++ entryMid ++ u) ++ [')'] := by
        simp [entryClose, List.append_assoc]
      rw [hconc, List.dropLast_concat]
      exact ⟨t, u, by simp [List.append_assoc]⟩

theorem mem_sedDeleteMatching {tag l : Line} {doc : List Line} :
    l ∈ sedDeleteMatching tag doc ↔ l ∈ doc ∧ ¬ tag <:+: l := by
  simp [sedDeleteMatching, List.mem_filter]

theorem countP_entry_sedDeleteMatching (t : Line) (doc : List Line) :
    (sedDeleteMatching t doc).countP (isEntryForB t) = 0 := by
  rw [List.countP_eq_zero]
  intro l hl hp
  exact (mem_sedDeleteMatching.mp hl).2 (tag_of_isEntryForB hp)

theorem countP_sedInsertBefore_le (p : Line → Bool) (text : Line) (xs : List Line) :
    (sedInsertBefore text xs).countP p ≤ xs.countP p + 1 := by
  induction xs with
  | nil => simp [sedInsertBefore]
  | cons l ls ih =>
    simp only [sedInsertBefore]
    by_cases h : startsWithStar l
    · rw [if_pos h]
      simp only [List.countP_cons]
      have hone : (if p text = true then 1 else 0) ≤ 1 := by split <;> omega
      omega
    · rw [if_neg h]
      simp only [List.countP_cons]
      omega

/-- C1: for every input ledger document and every release entry `{tag, uri}`, the
document produced by one application of the ledger update (deduplicate, append
placeholder, insert at head, strip bare bullets) contains at most one entry line
whose label equals `tag`. -/
theorem updateLedger_at_most_one_entry (e : ReleaseEntry) (doc : List Line) :
    (updateLedger e doc).countP (isEntryForB e.tag) ≤ 1 := by
  unfold updateLedger
  have h4 : (sedDeleteBareStar
        (sedInsertBefore (releaseText e) (sedAppendStar (sedDeleteMatching e.tag doc)))).countP
        (isEntryForB e.tag) ≤
      (sedInsertBefore (releaseText e) (sedAppendStar (sedDeleteMatching e.tag doc))).countP
        (isEntryForB e.tag) :=
    (List.filter_sublist _).countP_le _
  have h2 : (sedAppendStar (sedDeleteMatching e.tag doc)).countP (isEntryForB e.tag) = 0 := by
    rcases hd : sedDeleteMatching e.tag doc with - | ⟨a, as⟩
    · simp [sedAppendStar]
    · rw [sedAppendStar, List.countP_append, ← hd, countP_entry_sedDeleteMatching]
      simp [isEntryForB_bareStar]
  have h3 := countP_sedInsertBefore_le (isEntryForB e.tag) (releaseText e)
    (sedAppendStar (sedDeleteMatching e.tag doc))
  omega

/-- C4: the deduplication pass (`sed -i '/<tag>/d'`, `src/index.js` lines 95-98)
keeps exactly the lines of the input that do not contain the tag as a
case-sensitive literal substring — so every line containing the tag is removed,
whether or not it is a well-formed entry line — and keeps them in their original
order.  (The embedding splices the tag literally, which is faithful to the sed
regex under the claim's precondition that the tag has no regex metacharacters.) -/
theorem sedDeleteMatching_removes_tag_lines (tag : Line) (doc : List Line) :
    (∀ l, l ∈ sedDeleteMatching tag doc ↔ l ∈ doc ∧ ¬ tag <:+: l) ∧
      List.Sublist (sedDeleteMatching tag doc) doc :=
  ⟨fun _ => mem_sedDeleteMatching, List.filter_sublist _⟩

/-- C5: for every input ledger and entry, the output of the ledger update
contains zero lines that are exactly a bare bullet marker `*` — the placeholder
appended in pass 2 and any pre-existing bare bullets are all removed by pass 4. -/
theorem updateLedger_no_bare_bullet (e : ReleaseEntry) (doc : List Line) :
    (updateLedger e doc).count bareStar = 0 := by
  rw [List.count_eq_zero]
  intro hmem
  have h := (List.mem_filter.mp hmem).2
  simp at h

/-- C2 (code bug): re-deploying `v1-0-0` onto a ledger whose only line is the
existing `v1-0-0` entry.  Pass 1 deletes that line, leaving a zero-line file, so
pass 2 (`sed -i '$a*'`) appends nothing, pass 3 finds no line starting with `*`
and inserts nothing, and the ledger comes out empty — zero entry lines for the
tag instead of exactly one.  The same happens on a second application. -/
theorem updateLedger_twice_single_entry_ledger_empty :
    updateLedger ⟨"v1-0-0".data, "https://github.com/org/charts/releases/tag/v1-0-0".data⟩
        (updateLedger ⟨"v1-0-0".data, "https://github.com/org/charts/releases/tag/v1-0-0".data⟩
          ["* [v1-0-0](https://github.com/org/charts/releases/tag/v1-0-0)".data]) = [] := by
  decide

/-- C3 (code bug): on a zero-line README, GNU sed's `$a*` appends no placeholder
line, so pass 3 finds no line starting with `*` and the new entry is never
inserted: the output has no first entry line at all. -/
theorem updateLedger_empty_ledger_no_insert :
    updateLedger ⟨"v2-0-0".data, "https://github.com/org/charts/releases/tag/v2-0-0".data⟩
      [] = [] := by
  decide

/-- A line is untouched by the update when it is not an entry line, does not
contain the tag as a substring, and is not a bare bullet. -/
def preservedB (tag : Line) (l : Line) : Bool :=
  !isEntryLineB l && !decide (tag <:+: l) && !decide (l = bareStar)

theorem filter_filter_of_imp {α : Type} {P Q : α → Bool} (h : ∀ a, P a = true → Q a = true)
    (xs : List α) : (xs.filter Q).filter P = xs.filter P := by
  induction xs with
  | nil => rfl
  | cons a as ih =>
    by_cases hq : Q a = true
    · by_cases hp : P a = true <;> simp [List.filter_cons, hq, hp, ih]
    · have hp : P a = false := by
        cases hpa : P a with
        | false => rfl
        | true => exact absurd (h a hpa) hq
      simp [List.filter_cons, hq, hp, ih]

theorem filter_sedInsertBefore {P : Line → Bool} {text : Line} (hP : P text = false) :
    ∀ xs : List Line, (sedInsertBefore text xs).filter P = xs.filter P := by
  intro xs
  induction xs with
  | nil => rfl
  | cons l ls ih =>
    simp only [sedInsertBefore]
    by_cases h : startsWithStar l
    · rw [if_pos h, List.filter_cons, hP]
      simp
    · rw [if_neg h, List.filter_cons, List.filter_cons, ih]

theorem filter_sedAppendStar {P : Line → Bool} (hP : P bareStar = false) (xs : List Line) :
    (sedAppendStar xs).filter P = xs.filter P := by
  cases xs with
  | nil => rfl
  | cons a as =>
    rw [sedAppendStar, List.filter_append]
    simp [hP]

theorem preservedB_releaseText (e : ReleaseEntry) : preservedB e.tag (releaseText e) = false := by
  have h : e.tag <:+: releaseText e :=
    ⟨entryOpen, entryMid ++ e.uri ++ entryClose, by simp [releaseText, entryLineOf, List.append_assoc]⟩
  simp [preservedB, h]

theorem preservedB_bareStar (tag : Line) : preservedB tag bareStar = false := by
  simp [preservedB]

theorem preservedB_no_tag {tag l : Line} (h : preservedB tag l = true) :
    (!decide (tag <:+: l)) = true := by
  simp only [preservedB, Bool.and_eq_true] at h
  exact h.1.2

theorem preservedB_not_bare {tag l : Line} (h : preservedB tag l = true) :
    (!decide (l = bareStar)) = true := by
  simp only [preservedB, Bool.and_eq_true] at h
  exact h.2

/-- C6, amended: every line of the input that is not an entry line, does not
contain the tag as a substring, and is not a bare bullet `*` appears verbatim in
the output of the ledger update, and the relative order of those lines is
unchanged (the subsequence they form is exactly the same).  The original claim,
quantified over all non-entry lines, is false: pass 1 also deletes non-entry
lines mentioning the tag and pass 4 deletes bare bullets. -/
theorem updateLedger_preserves_untouched_lines (e : ReleaseEntry) (doc : List Line) :
    (updateLedger e doc).filter (preservedB e.tag) = doc.filter (preservedB e.tag) := by
  unfold updateLedger sedDeleteBareStar sedDeleteMatching
  rw [filter_filter_of_imp (fun l => preservedB_not_bare),
    filter_sedInsertBefore (preservedB_releaseText e),
    filter_sedAppendStar (preservedB_bareStar e.tag),
    filter_filter_of_imp (fun l => preservedB_no_tag)]

/-- C6 is false as stated: a prose line mentioning the tag is a non-entry line of
the input that does not appear in the output (pass 1 deletes it). -/
theorem updateLedger_drops_a_non_entry_line :
    isEntryLineB "v1-0-0 release notes".data = false ∧
      "v1-0-0 release notes".data ∈ (["v1-0-0 release notes".data] : List Line) ∧
      "v1-0-0 release notes".data ∉
        updateLedger ⟨"v1-0-0".data, "https://example.invalid/u".data⟩
          ["v1-0-0 release notes".data] := by
  decide

/-!
Model of the orchestration in `run()` (`src/index.js` lines 18-130).

The configuration inputs (`core.getInput`, empty string when absent), the GitHub
context, and the state of the working tree are the parameters; the external
commands the run would execute are recorded as an abstract step list (external
commands are assumed to succeed — the claims below concern only which commands
are issued and with which arguments, and the failure paths taken before any
command runs).
-/

/-- The action's configuration inputs; `core.getInput` yields `""` for an absent
input, modelled as the empty character list. -/
structure Inputs where
  accessToken : Line
  deployBranch : Line
  readmePreamble : Line
  repo : Line
  chartsFolder : Line
deriving DecidableEq

/-- The GitHub context fields read by `run()`. -/
structure Context where
  ref : Line
  owner : Line
  repo : Line
  actor : Line
  sha : Line
deriving DecidableEq

/-- The parts of the environment the run touches: the chart directories listed
under the charts folder, whether `./CNAME` exists, and the README of the cloned
target branch. -/
structure World where
  chartDirs : List Line
  cnameExists : Bool
  readme : List Line
deriving DecidableEq

/-- One external command issued by the run. -/
inductive Step where
  | gitClone (branch url : Line)
  | gitConfigName (name : Line)
  | gitConfigEmail (email : Line)
  | helmInit
  | helmDepUpdate (dir : Line)
  | helmPackage (dir : Line)
  | helmRepoIndex
  | copyCname
  | sedDedup (tag : Line)
  | sedAppend
  | sedInsert (text : Line)
  | sedStrip
  | gitAdd
  | gitCommit (msg : Line)
  | gitPush (branch : Line)
deriving DecidableEq

/-- The observable result of one run: the external commands issued, the message
passed to `core.setFailed` (if any), the release entry derived for the deploy
(if the run reaches it), and the README text written back (if the run reaches
the ledger update). -/
structure RunResult where
  steps : List Step
  failure : Option Line
  entry : Option ReleaseEntry
  readme : Option (List Line)
deriving DecidableEq

/-- JavaScript `String.prototype.replace` with a string pattern: replace the
first occurrence of `pat` (if any) by `repl`. -/
def replaceFirst (pat repl : Line) : Line → Line
  | [] => if pat = [] then repl else []
  | c :: cs =>
    if pat <+: (c :: cs) then repl ++ (c :: cs).drop pat.length
    else c :: replaceFirst pat repl cs

/-- `src/index.js` lines 22-24. -/
def noTokenMsg : Line :=
  "No personal access token found. Please provide one by setting the `access-token` input for this action.".data

/-- The message of the TypeError raised by `deployBranch = 'master'` on line 29:
`deployBranch` is declared `const` on line 28, and assignment to a
const-declared binding throws `TypeError: Assignment to constant variable.`,
which the `catch` on lines 127-129 passes to `core.setFailed`. -/
def constAssignMsg : Line := "Assignment to constant variable.".data

/-- The orchestration of `run()`: the guard clauses of lines 20-41 followed by
the deployment command sequence of lines 43-126. -/
def runModel (inp : Inputs) (ctx : Context) (w : World) : RunResult :=
  if inp.accessToken = [] then
    { steps := [], failure := some noTokenMsg, entry := none, readme := none }
  else if inp.deployBranch = [] then
    { steps := [], failure := some constAssignMsg, entry := none, readme := none }
  else
    let deployBranch := inp.deployBranch
    let sourceBranch := replaceFirst "refs/tags/".data [] ctx.ref
    if ctx.ref = "refs/heads/".data ++ deployBranch then
      { steps := [], failure := none, entry := none, readme := none }
    else
      let baseRepo := ctx.owner ++ "/".data ++ ctx.repo
      let helmRepo := if inp.repo = [] then baseRepo else inp.repo
      let repoURL := "https://".data ++ inp.accessToken ++ "@github.com/".data ++ helmRepo
        ++ ".git".data
      let releaseURI := "https://github.com/".data ++ baseRepo ++ "/releases/tag/".data
        ++ sourceBranch
      let entry : ReleaseEntry := ⟨sourceBranch, releaseURI⟩
      { steps :=
          [.gitClone deployBranch repoURL, .gitConfigName ctx.actor,
            .gitConfigEmail (ctx.actor ++ "@users.noreply.github.com".data), .helmInit]
          ++ (w.chartDirs.flatMap fun d => [.helmDepUpdate d, .helmPackage d])
          ++ [.helmRepoIndex]
          ++ (if w.cnameExists then [.copyCname] else [])
          ++ [.sedDedup sourceBranch, .sedAppend, .sedInsert (releaseText entry), .sedStrip,
            .gitAdd, .gitCommit ("Add ".data ++ sourceBranch ++ "@".data ++ ctx.sha ++ " ⎈".data),
            .gitPush deployBranch],
        failure := none,
        entry := some entry,
        readme := some (updateLedger entry w.readme) }

/-- C8: when the access credential is absent, the run reports the single failure
message of lines 22-24 and issues no external command at all — in particular no
clone, no commit and no push. -/
theorem missing_token_fails_without_steps (inp : Inputs) (ctx : Context) (w : World)
    (h : inp.accessToken = []) :
    runModel inp ctx w =
      { steps := [], failure := some noTokenMsg, entry := none, readme := none } := by
  simp [runModel, h]

theorem missing_token_fails_without_steps_witness :
    runModel ⟨[], "gh-pages".data, [], [], "charts".data⟩
        ⟨"refs/tags/v1-0-0".data, "cilium".data, "charts-src".data, "alice".data, "abc123".data⟩
        ⟨["mychart".data], false, []⟩ =
      { steps := [], failure := some noTokenMsg, entry := none, readme := none } :=
  missing_token_fails_without_steps _ _ _ rfl

/-- C7 (code bug): when the `deploy-branch` input is absent, line 29 assigns to
the `const` binding `deployBranch`; this throws `TypeError: Assignment to
constant variable.` which the catch block reports via `core.setFailed` — the run
fails before issuing any command instead of proceeding with the fallback branch
`master`. -/
theorem missing_deploy_branch_fails (inp : Inputs) (ctx : Context) (w : World)
    (htok : inp.accessToken ≠ []) (hdb : inp.deployBranch = []) :
    runModel inp ctx w =
      { steps := [], failure := some constAssignMsg, entry := none, readme := none } := by
  simp [runModel, htok, hdb]

theorem missing_deploy_branch_fails_witness :
    runModel ⟨"token123".data, [], [], [], "charts".data⟩
        ⟨"refs/tags/v1-0-0".data, "cilium".data, "charts-src".data, "alice".data, "abc123".data⟩
        ⟨["mychart".data], false, []⟩ =
      { steps := [], failure := some constAssignMsg, entry := none, readme := none } :=
  missing_deploy_branch_fails _ _ _ (by decide) rfl

/-- C9: the `readme-preamble` input is read (lines 32-33) but never used, so two
runs differing only in it produce identical results — same commands, same
failure behaviour, and the same README text written back. -/
theorem readme_preamble_has_no_effect (inp : Inputs) (ctx : Context) (w : World)
    (p₁ p₂ : Line) :
    runModel { inp with readmePreamble := p₁ } ctx w =
      runModel { inp with readmePreamble := p₂ } ctx w := rfl

/-- C10: whenever the run derives a release entry, its URI is built (lines
43-46 and 102) from `github.context.repo` — the repository that triggered the
run — never from the `repo` input selecting the deployment target. -/
theorem release_uri_names_triggering_repo (inp : Inputs) (ctx : Context) (w : World)
    (e : ReleaseEntry) (h : (runModel inp ctx w).entry = some e) :
    e.uri = "https://github.com/".data ++ ctx.owner ++ "/".data ++ ctx.repo
      ++ "/releases/tag/".data ++ e.tag := by
  simp only [runModel] at h
  split at h
  · simp at h
  · split at h
    · simp at h
    · split at h
      · simp at h
      · simp only [Option.some.injEq] at h
        subst h
        simp [List.append_assoc]

theorem release_uri_names_triggering_repo_witness :
    (⟨"v1-2-3".data,
        "https://github.com/cilium/charts-src/releases/tag/v1-2-3".data⟩ : ReleaseEntry).uri =
      "https://github.com/".data ++ "cilium".data ++ "/".data ++ "charts-src".data
        ++ "/releases/tag/".data ++ "v1-2-3".data :=
  release_uri_names_triggering_repo
    ⟨"token123".data, "gh-pages".data, [], "other-org/helm-charts".data, "charts".data⟩
    ⟨"refs/tags/v1-2-3".data, "cilium".data, "charts-src".data, "alice".data, "abc123".data⟩
    ⟨[], false, []⟩ _ (by decide)
